import Mathlib

/-!
Shallow embedding of the Airtable-connected dynamic form builder's core:
the conditional logic engine (src/services/conditionalLogic.js), the
webhook sync service (src/services/webhookSyncService.js), the webhook
controller (src/controllers/webhookController.js), the Airtable field
mapper (src/services/airtableService.js, src/services/formValidation.js)
and the Response persistence model (src/models — responseSchema).

JavaScript values flowing through answers and Airtable fields are
modelled by `JsValue` (null, string, integer number, array).  JS
`undefined` is modelled as absence (`Option.none`).  Numeric coercions
(`parseFloat`, `Number`) are modelled on integer-valued literals only;
array-to-primitive coercion uses the `Array.prototype.toString` join.
Two distinct array objects are never `==` in JS (reference equality),
which the model reflects by returning `false` on array/array comparison.
-/

inductive JsValue where
  | null : JsValue
  | str : String → JsValue
  | num : Int → JsValue
  | arr : List JsValue → JsValue
deriving Repr

mutual

/-- JS string coercion of a value (`String(v)` / `Array.prototype.toString`). -/
def jsToString : JsValue → String
  | .null => "null"
  | .str s => s
  | .num n => toString n
  | .arr xs => String.intercalate "," (jsToStringList xs)

/-- Elements of an array joined by `,`; a null element renders as the empty
string, per `Array.prototype.join`. -/
def jsToStringList : List JsValue → List String
  | [] => []
  | .null :: rest => "" :: jsToStringList rest
  | v :: rest => jsToString v :: jsToStringList rest

end

/-- JS `Number(string)` restricted to integer literals: the empty string
coerces to 0, otherwise the string must be an integer numeral (model
restriction: non-integer numerics are out of scope). -/
def strToNumber (s : String) : Option Int :=
  if s = "" then some 0 else s.toInt?

/-- JS `parseFloat` applied to a value, restricted to integer results.
Null and arrays never parse in the model (model restriction: JS would
first coerce them to strings). -/
def parseNum : JsValue → Option Int
  | .num n => some n
  | .str s => s.toInt?
  | _ => none

/-- JS strict-ish equality used by `Array.prototype.includes`
(SameValueZero).  Array operands compare by reference in JS, hence
`false` here for two (distinct) array objects. -/
def strictEqJs : JsValue → JsValue → Bool
  | .null, .null => true
  | .str a, .str b => a = b
  | .num a, .num b => a = b
  | _, _ => false

/-- JS abstract (loose) equality `==` on the modelled value lattice. -/
def looseEq : JsValue → JsValue → Bool
  | .null, .null => true
  | .num x, .num y => x = y
  | .str x, .str y => x = y
  | .num x, .str y => (strToNumber y).any (fun n => n = x)
  | .str x, .num y => (strToNumber x).any (fun n => n = y)
  | .arr xs, .str y => jsToString (.arr xs) = y
  | .str x, .arr ys => x = jsToString (.arr ys)
  | .arr xs, .num y => (strToNumber (jsToString (.arr xs))).any (fun n => n = y)
  | .num x, .arr ys => (strToNumber (jsToString (.arr ys))).any (fun n => n = x)
  | _, _ => false

/-- Substring test, as in `String.prototype.includes`. -/
def strContains (hay needle : String) : Bool :=
  decide (needle.data <:+: hay.data)

/-- The operator table of `ConditionalLogicEngine` (`this.operators`). -/
def applyOperator (op : String) (actual expected : JsValue) : Bool :=
  if op = "equals" then looseEq actual expected
  else if op = "notEquals" then !looseEq actual expected
  else if op = "contains" then
    match actual with
    | .arr xs => xs.any (fun x => strictEqJs x expected)
    | .str s => strContains s (jsToString expected)
    | _ => false
  else if op = "notContains" then
    match actual with
    | .arr xs => !xs.any (fun x => strictEqJs x expected)
    | .str s => !strContains s (jsToString expected)
    | _ => true
  else if op = "greaterThan" then
    match parseNum actual, parseNum expected with
    | some x, some y => decide (y < x)
    | _, _ => false
  else if op = "lessThan" then
    match parseNum actual, parseNum expected with
    | some x, some y => decide (x < y)
    | _, _ => false
  else false

/-- Membership in `this.operators` (the lookup `this.operators[op]`). -/
def isKnownOperator (op : String) : Bool :=
  ["equals", "notEquals", "contains", "notContains", "greaterThan", "lessThan"].contains op

/-- One entry of `rules.conditions`. -/
structure Condition where
  questionKey : String
  operator : String
  value : JsValue
deriving Repr

/-- A conditional rule object: `logic` with a list of conditions.
A JS rule whose `conditions` field is absent behaves exactly like one
with an empty list, so both are modelled by `[]`. -/
structure CRules where
  logic : String
  conditions : List Condition
deriving Repr

/-- Answer lookup `answers[questionKey]`; `none` models JS `undefined`. -/
def lookupAnswer (answers : List (String × JsValue)) (k : String) : Option JsValue :=
  (answers.find? (fun p => p.1 == k)).map (fun p => p.2)

/-- Per-condition evaluation inside `shouldShowQuestion`: unknown operator
evaluates false; a missing / null / empty-string answer evaluates false;
otherwise the operator is applied to (answer, condition.value). -/
def evalCondition (answers : List (String × JsValue)) (c : Condition) : Bool :=
  if !isKnownOperator c.operator then false
  else
    match lookupAnswer answers c.questionKey with
    | none => false
    | some .null => false
    | some (.str "") => false
    | some a => applyOperator c.operator a c.value

/-- `ConditionalLogicEngine.shouldShowQuestion(rules, answers)`. -/
def shouldShowQuestion (rules : Option CRules) (answers : List (String × JsValue)) : Bool :=
  match rules with
  | none => true
  | some r =>
    if r.conditions.isEmpty then true
    else
      let results := r.conditions.map (evalCondition answers)
      if r.logic = "OR" then results.any (fun b => b) else results.all (fun b => b)

/-- A form question as seen by the logic engine and the sync service. -/
structure Question where
  questionKey : String
  airtableFieldId : String
  conditionalRules : Option CRules
deriving Repr

/-- First-occurrence deduplication, mirroring JS object-key insertion
order in `createDependencyGraph` (assigning `graph[key]` twice keeps one
key at its first position). -/
def dedupFirstAux : List String → List String → List String
  | _, [] => []
  | seen, k :: ks =>
    if seen.contains k then dedupFirstAux seen ks
    else k :: dedupFirstAux (k :: seen) ks

def dedupFirst (l : List String) : List String := dedupFirstAux [] l

/-- `Object.keys(graph)` for the dependency graph built by
`createDependencyGraph`. -/
def graphKeys (qs : List Question) : List String :=
  dedupFirst (qs.map (fun q => q.questionKey))

/-- The `dependentBy` adjacency of `createDependencyGraph`: an edge
`k → q.questionKey` for every condition of `q` referencing `k`.  The JS
guard `if (graph[condition.questionKey])` holds automatically whenever
this list is queried at a key of the graph, which is the only way the
traversal uses it. -/
def dependentBy (qs : List Question) (k : String) : List String :=
  qs.foldl
    (fun acc q =>
      match q.conditionalRules with
      | none => acc
      | some r =>
        acc ++ r.conditions.filterMap
          (fun c => if c.questionKey = k then some q.questionKey else none))
    []

/-- The mutable state of `detectCircularDependencies`: the `visited` map,
the `recursionStack` map (both as lists of the keys currently flagged
true) and the accumulated `cycles`. -/
structure DfsState where
  visited : List String
  stack : List String
  cycles : List (List String)
deriving Repr

/-- The `dependencies.forEach(dep => ...)` loop of the inner `dfs` of
`detectCircularDependencies`, parametrised by the recursive visit
function: an already-visited dependency on the recursion stack records
the extended path as a cycle; an unvisited one is visited recursively. -/
def dfsDeps (visitFn : String → List String → DfsState → DfsState) :
    List String → List String → DfsState → DfsState
  | [], _, s => s
  | dep :: rest, path, s =>
    let newPath := path ++ [dep]
    let s' :=
      if s.visited.contains dep then
        if s.stack.contains dep then { s with cycles := s.cycles ++ [newPath] } else s
      else visitFn dep newPath s
    dfsDeps visitFn rest path s'

/-- The inner `dfs(node, path)` of `detectCircularDependencies`.  The
fuel argument bounds the recursion depth; any fuel exceeding the number
of graph nodes is enough, since each nested call marks a fresh node
visited. -/
def dfsVisit (adj : String → List String) : Nat → String → List String → DfsState → DfsState
  | 0, _, _, s => s
  | Nat.succ f, node, path, s =>
    if s.visited.contains node then
      { s with stack := s.stack.erase node }
    else
      let s1 : DfsState := { s with visited := node :: s.visited, stack := node :: s.stack }
      let s2 := dfsDeps (dfsVisit adj f) (adj node) path s1
      { s2 with stack := s2.stack.erase node }

/-- The root loop `Object.keys(graph).forEach(...)` of
`detectCircularDependencies`, returning the final traversal state. -/
def detectState (qs : List Question) : DfsState :=
  let keys := graphKeys qs
  let adj := dependentBy qs
  keys.foldl
    (fun s k => if s.visited.contains k then s else dfsVisit adj (keys.length + 1) k [k] s)
    ⟨[], [], []⟩

/-- `ConditionalLogicEngine.detectCircularDependencies(questions)`,
returning `(hasCycles, cycles)`. -/
def detectCircularDependencies (qs : List Question) : Bool × List (List String) :=
  let s := detectState qs
  (!s.cycles.isEmpty, s.cycles)

/-- Edge relation of the dependency graph (`dependentBy` direction). -/
def DepEdge (qs : List Question) (a b : String) : Prop :=
  b ∈ dependentBy qs a

/-- The dependency graph has a directed cycle. -/
def GraphHasCycle (qs : List Question) : Prop :=
  ∃ n, Relation.TransGen (DepEdge qs) n n

/-!
Webhook sync service (`WebhookSyncService`) and the Response persistence
model.  Dates are modelled by an abstract clock value of type `Nat`
passed in as `now`; each call site that evaluates `new Date()` records
the current clock.  Exceptions thrown by the Airtable client and by the
persistence layer are modelled by a `SyncEnv` record describing, for one
`syncSingleRecord` invocation, the outcome of the external fetch and of
the two `response.save()` call sites; the function itself returns the
new database unconditionally, mirroring the outer `try/catch` that
swallows every error at this call's boundary.
-/

/-- `Response.status` values of the response schema. -/
inductive RStatus where
  | submitted | pending | synced | failed | deleted
deriving DecidableEq, Repr

/-- One element of `Response.answers`. -/
structure RAnswer where
  questionKey : String
  value : JsValue
  submittedAt : Nat
deriving Repr

/-- `Response.syncStatus`. -/
structure RSyncStatus where
  lastSyncedAt : Option Nat
  syncAttempts : Nat
  syncError : Option String
deriving Repr

/-- A persisted Response document. -/
structure Resp where
  formId : String
  userId : String
  airtableRecordId : String
  status : RStatus
  answers : List RAnswer
  syncStatus : RSyncStatus
deriving Repr

/-- A persisted Form document (the fields the sync service reads). -/
structure Form where
  id : String
  userId : String
  airtableBaseId : String
  airtableTableId : String
  isActive : Bool
  questions : List Question
deriving Repr

/-- A User document: only token validity matters to the sync service. -/
structure User where
  id : String
  tokenExpired : Bool
deriving Repr

/-- An Airtable record's `fields` object, keyed by field id. -/
structure ARecord where
  fields : List (String × JsValue)
deriving Repr

/-- Field lookup `record.fields[fieldId]`; `none` models absence. -/
def fieldLookup (fields : List (String × JsValue)) (fid : String) : Option JsValue :=
  (fields.find? (fun p => p.1 == fid)).map (fun p => p.2)

/-- Environment of one `syncSingleRecord` call: the result of
`AirtableService.getRecord` (`Except.error` = the client threw,
`ok none` = a falsy record), whether the main-path `response.save()`
throws (and with which message), and whether the save inside the catch
block succeeds (its own failure is swallowed by the inner catch). -/
structure SyncEnv where
  fetchR : Except String (Option ARecord)
  saveMainErr : Option String
  saveCatchOk : Bool

/-- The answer-building loop of `syncSingleRecord`: for each question,
if the Airtable record carries its field, push
`{questionKey, value, submittedAt: new Date()}`; absent fields are
omitted. -/
def buildAnswers (questions : List Question) (rec : ARecord) (now : Nat) : List RAnswer :=
  questions.filterMap
    (fun q => (fieldLookup rec.fields q.airtableFieldId).map
      (fun v => ⟨q.questionKey, v, now⟩))

/-- `Response.findOne({ airtableRecordId })`. -/
def findResp (db : List Resp) (rid : String) : Option Resp :=
  db.find? (fun r => r.airtableRecordId == rid)

/-- Persisting a mutated document found by `airtableRecordId`: the first
matching entry is replaced in place. -/
def replaceFirst (db : List Resp) (rid : String) (r' : Resp) : List Resp :=
  match db with
  | [] => []
  | r :: rest =>
    if r.airtableRecordId == rid then r' :: rest else r :: replaceFirst rest rid r'

/-- The catch block of `syncSingleRecord`: re-find the Response by
record id; if present, set `status = failed`, record the error text and
increment `syncStatus.syncAttempts`, then save (a failing save here is
swallowed, leaving the database unchanged).  `lastSyncedAt` and the
answers are not touched. -/
def syncCatch (recordId msg : String) (catchOk : Bool) (db : List Resp) : List Resp :=
  match findResp db recordId with
  | none => db
  | some r =>
    let r' : Resp :=
      { r with
        status := RStatus.failed,
        syncStatus :=
          { r.syncStatus with
            syncError := some msg,
            syncAttempts := r.syncStatus.syncAttempts + 1 } }
    if catchOk then replaceFirst db recordId r' else db

/-- `WebhookSyncService.syncSingleRecord(baseId, tableId, recordId)`,
acting on the Response collection `db`.  Missing form, missing user or
an expired token make the call a logged no-op; a fetched record updates
the existing Response (overwriting answers, `status = synced`,
`syncAttempts + 1`, fresh `lastSyncedAt`, `syncError` untouched) or
creates a new one with `syncAttempts = 1`; every thrown error lands in
`syncCatch`. -/
def syncSingleRecord (forms : List Form) (users : List User) (env : SyncEnv) (now : Nat)
    (baseId tableId recordId : String) (db : List Resp) : List Resp :=
  match forms.find?
      (fun f => f.airtableBaseId == baseId && f.airtableTableId == tableId && f.isActive) with
  | none => db
  | some form =>
    match users.find? (fun u => u.id == form.userId) with
    | none => db
    | some user =>
      if user.tokenExpired then db
      else
        match env.fetchR with
        | Except.error msg => syncCatch recordId msg env.saveCatchOk db
        | Except.ok none => db
        | Except.ok (some rec) =>
          let answers := buildAnswers form.questions rec now
          match findResp db recordId with
          | some r =>
            let r' : Resp :=
              { r with
                answers := answers,
                status := RStatus.synced,
                syncStatus :=
                  { r.syncStatus with
                    lastSyncedAt := some now,
                    syncAttempts := r.syncStatus.syncAttempts + 1 } }
            match env.saveMainErr with
            | none => replaceFirst db recordId r'
            | some msg => syncCatch recordId msg env.saveCatchOk db
          | none =>
            let r' : Resp :=
              ⟨form.id, form.userId, recordId, RStatus.synced, answers, ⟨some now, 1, none⟩⟩
            match env.saveMainErr with
            | none => db ++ [r']
            | some msg => syncCatch recordId msg env.saveCatchOk db

/-- Number of Responses holding a given `airtableRecordId` (the unique
index `responseSchema.index({ airtableRecordId: 1 }, { unique: true })`
demands this never exceeds 1). -/
def countRid (db : List Resp) (rid : String) : Nat :=
  (db.filter (fun r => r.airtableRecordId == rid)).length

/-- The per-batch record loop of `handleUpdatedRecords`: each record id
of the event is reconciled by `syncSingleRecord`.  The JS code runs one
batch under `Promise.all`; since distinct record ids touch distinct
Responses, the model linearises the batch in order. -/
def processBatch (forms : List Form) (users : List User) (envOf : String → SyncEnv)
    (now : Nat) (baseId tableId : String) (ids : List String) (db : List Resp) : List Resp :=
  ids.foldl (fun d rid => syncSingleRecord forms users (envOf rid) now baseId tableId rid d) db

/-!
Full resync: `WebhookSyncService.syncAllRecordsForForm(formId)`.
The Airtable list endpoint is modelled by `listFn`, taking the current
continuation token (`none` on the first call) and returning either a
thrown error or `(record ids, next token)`.  The do/while loop keeps
going while the next token is truthy.  `fuel` bounds the number of loop
iterations, standing in for the unbounded JS loop.
-/

/-- JS truthiness of the `offset` continuation token. -/
def tokenTruthy : Option String → Bool
  | none => false
  | some s => !s.isEmpty

/-- The do/while pagination loop.  Returns
`(page fetches issued, syncedCount, errorCount, final db)`.  The
per-record `try/catch` inside the loop can never take its catch arm
because `syncSingleRecord` swallows every error, so `syncedCount` is
incremented for each listed record. -/
def syncAllLoop (forms : List Form) (users : List User) (envOf : String → SyncEnv) (now : Nat)
    (baseId tableId : String) (listFn : Option String → Except String (List String × Option String)) :
    Nat → Option String → Nat → Nat → Nat → List Resp → Nat × Nat × Nat × List Resp
  | 0, _, fetches, synced, errors, db => (fetches, synced, errors, db)
  | Nat.succ fuel, tok, fetches, synced, errors, db =>
    match listFn tok with
    | Except.error _ => (fetches + 1, synced, errors + 1, db)
    | Except.ok (records, nextTok) =>
      let step := records.foldl
        (fun (p : Nat × List Resp) rid =>
          (p.1 + 1, syncSingleRecord forms users (envOf rid) now baseId tableId rid p.2))
        (synced, db)
      if tokenTruthy nextTok then
        syncAllLoop forms users envOf now baseId tableId listFn fuel nextTok
          (fetches + 1) step.1 errors step.2
      else (fetches + 1, step.1, errors, step.2)

/-- `syncAllRecordsForForm(formId)`: resolve the form by id and its
user; a missing form or expired token is re-thrown to the caller; the
pagination loop then runs from a null token. -/
def syncAllRecordsForForm (forms : List Form) (users : List User) (envOf : String → SyncEnv)
    (now : Nat) (formId : String)
    (listFn : Option String → Except String (List String × Option String))
    (fuel : Nat) (db : List Resp) : Except String (Nat × Nat × Nat × List Resp) :=
  match forms.find? (fun f => f.id == formId) with
  | none => Except.error "Form not found"
  | some form =>
    match users.find? (fun u => u.id == form.userId) with
    | none => Except.error "User token expired"
    | some user =>
      if user.tokenExpired then Except.error "User token expired"
      else Except.ok
        (syncAllLoop forms users envOf now form.airtableBaseId form.airtableTableId
          listFn fuel none 0 0 0 db)

/-- `this.maxRetries` of `WebhookSyncService`. -/
def maxRetries : Nat := 3

/-- The selection query of `retryFailedSyncs(limit)`:
`Response.find({ status: failed, syncAttempts < maxRetries }).limit(limit)`. -/
def selectRetryCandidates (limit : Nat) (db : List Resp) : List Resp :=
  (db.filter
    (fun r => decide (r.status = RStatus.failed) &&
      decide (r.syncStatus.syncAttempts < maxRetries))).take limit

/-!
Webhook ingress: `WebhookController.handleWebhook` and
`WebhookSyncService.verifySignature`.  Payloads and signatures are
modelled as strings of single-byte characters, so the byte length of
`Buffer.from(s)` is `s.length`.  The HMAC-SHA256 hex digest produced by
`crypto.createHmac(...).digest('hex')` is an external primitive and is
modelled as a parameter `hmacHex : secret → payload → digest`; every
real digest is a 64-character hex string, which concrete instantiations
respect.  `crypto.timingSafeEqual` throws `RangeError` when its two
buffers differ in byte length — that throw, like every other, escapes
`verifySignature` into the controller's catch. -/

/-- An HTTP response as the controller builds it: status code, the
`success` flag and the `error` field of the JSON body. -/
structure HttpResponse where
  statusCode : Nat
  success : Bool
  errorMsg : Option String
deriving DecidableEq, Repr

/-- `crypto.timingSafeEqual(Buffer.from(a), Buffer.from(b))`: throws on
differing byte lengths, otherwise constant-time byte equality. -/
def timingSafeEqual (a b : String) : Except String Bool :=
  if a.length = b.length then Except.ok (a == b)
  else Except.error "Input buffers must have the same byte length"

/-- `WebhookSyncService.verifySignature(payload, signature)`: with no
configured secret it returns true before touching the buffers; with a
secret, `Buffer.from(signature)` throws on a missing header value, and
the comparison itself may throw on a length mismatch. -/
def verifySignature (secret : Option String) (hmacHex : String → String → String)
    (payload : String) (signature : Option String) : Except String Bool :=
  match secret with
  | none => Except.ok true
  | some s =>
    match signature with
    | none => Except.error "The first argument must be of type string or an instance of Buffer"
    | some sig => timingSafeEqual sig (hmacHex s payload)

/-- `WebhookController.handleWebhook(req, res)`.  `envSecret` is
`process.env.WEBHOOK_SECRET` (read both by the controller's guard and by
the service), `signature` the `x-airtable-webhook-signature` header, and
`processR` the outcome of `WebhookSyncService.processWebhook(req.body)`.
Anything thrown inside the try block is answered with
status 200 and a `success: false` body, deliberately, so that Airtable
does not retry a permanently malformed payload. -/
def handleWebhook (envSecret : Option String) (hmacHex : String → String → String)
    (signature : Option String) (payload : String)
    (processR : Except String Unit) : HttpResponse :=
  let tryBlock : Except String HttpResponse :=
    match envSecret with
    | some _ =>
      match verifySignature envSecret hmacHex payload signature with
      | Except.error e => Except.error e
      | Except.ok false => Except.ok ⟨401, false, some "Invalid signature"⟩
      | Except.ok true =>
        match processR with
        | Except.error e => Except.error e
        | Except.ok _ => Except.ok ⟨200, true, none⟩
    | none =>
      match processR with
      | Except.error e => Except.error e
      | Except.ok _ => Except.ok ⟨200, true, none⟩
  match tryBlock with
  | Except.ok resp => resp
  | Except.error e => ⟨200, false, some e⟩

/-- A stand-in for the HMAC-SHA256 hex digest: like every real hex
digest it has 64 characters.  Used only to instantiate concrete
webhook scenarios. -/
def stubDigest : String → String → String :=
  fun _ _ => String.mk (List.replicate 64 'a')

/-!
Field mapper: `AirtableService.mapAirtableField` (the `mappedType`
switch, where `null` marks an unsupported external type) and
`FormValidator.airtableTypeMap` together with the type check of
`FormValidator.validateQuestions`.
-/

/-- The `switch (fieldType)` of `mapAirtableField`; `none` is the
`mappedType = null` unsupported marker. -/
def mapAirtableFieldType (t : String) : Option String :=
  if t = "singleLineText" ∨ t = "email" ∨ t = "url" then some "shortText"
  else if t = "multilineText" ∨ t = "richText" then some "longText"
  else if t = "singleSelect" then some "singleSelect"
  else if t = "multipleSelects" then some "multiSelect"
  else if t = "multipleAttachments" then some "attachment"
  else none

/-- `FormValidator.airtableTypeMap` as an association list. -/
def airtableTypeMap : List (String × String) :=
  [("singleLineText", "shortText"), ("email", "shortText"), ("url", "shortText"),
   ("multilineText", "longText"), ("richText", "longText"),
   ("singleSelect", "singleSelect"), ("multipleSelects", "multiSelect"),
   ("multipleAttachments", "attachment")]

/-- Lookup in `airtableTypeMap` (JS property access, `undefined = none`). -/
def lookupTypeMap (t : String) : Option String :=
  (airtableTypeMap.find? (fun p => p.1 == t)).map (fun p => p.2)

/-- The external field types named by the mapping table. -/
def supportedAirtableTypes : List String :=
  ["singleLineText", "email", "url", "multilineText", "richText",
   "singleSelect", "multipleSelects", "multipleAttachments"]

/-- The per-question type check of `FormValidator.validateQuestions`
against the Airtable field bound to the question: the field object's
`type` is the mapped type produced by `mapAirtableField`, its
`airtableType` the raw external type.  Returns true when no type error
is pushed. -/
def questionTypeAccepted (questionType rawFieldType : String) : Bool :=
  if mapAirtableFieldType rawFieldType == some questionType then true
  else
    match lookupTypeMap rawFieldType with
    | some m => m == questionType
    | none => false

/-!
Proof auxiliaries and concrete fixtures.
-/

/-- Number of graph keys not yet visited; the DFS fuel only needs to
dominate this quantity. -/
def unvisitedCount (keys visited : List String) : Nat :=
  (keys.filter (fun k => !visited.contains k)).length

/-- Projection of a full-resync result onto
`(page fetches, syncedCount, errorCount)`. -/
def resultCounts (r : Except String (Nat × Nat × Nat × List Resp)) : Option (Nat × Nat × Nat) :=
  match r with
  | Except.ok x => some (x.1, x.2.1, x.2.2.1)
  | Except.error _ => none

/-- A rule whose conditions reference the given question keys. -/
def ruleRefs (ks : List String) : CRules :=
  ⟨"AND", ks.map (fun k => ⟨k, "equals", JsValue.str "x"⟩)⟩

/-- Two questions whose rules reference each other (the Q1 ↔ Q2 example). -/
def twoCycleQuestions : List Question :=
  [⟨"q1", "f1", some (ruleRefs ["q2"])⟩, ⟨"q2", "f2", some (ruleRefs ["q1"])⟩]

/-- Three questions each referencing the two others: the dependency
graph is the complete digraph on three nodes. -/
def k3Questions : List Question :=
  [⟨"q1", "f1", some (ruleRefs ["q2", "q3"])⟩,
   ⟨"q2", "f2", some (ruleRefs ["q1", "q3"])⟩,
   ⟨"q3", "f3", some (ruleRefs ["q1", "q2"])⟩]

/-- A form bound to `(base1, tbl1)` with one question. -/
def demoForm : Form := ⟨"form1", "user1", "base1", "tbl1", true, [⟨"name", "fldName", none⟩]⟩

def demoUser : User := ⟨"user1", false⟩

def recId (i : Nat) : String := "rec" ++ toString i

def recIds (start count : Nat) : List String :=
  (List.range count).map (fun i => recId (start + i))

/-- Environment in which every record fetch succeeds and every save
persists. -/
def demoEnvOf : String → SyncEnv :=
  fun rid => ⟨Except.ok (some ⟨[("fldName", JsValue.str rid)]⟩), none, true⟩

/-- A 25-record table listed 10 records per page: three pages chained by
continuation tokens. -/
def pager25 : Option String → Except String (List String × Option String)
  | none => Except.ok (recIds 0 10, some "tok1")
  | some "tok1" => Except.ok (recIds 10 10, some "tok2")
  | some "tok2" => Except.ok (recIds 20 5, none)
  | some _ => Except.error "unknown token"

/-- A Response already linked to external record `rec1`. -/
def demoResp : Resp := ⟨"form1", "user1", "rec1", RStatus.synced, [], ⟨some 0, 1, none⟩⟩

/-- A fetched external record carrying the demo form's single field. -/
def demoRecord : ARecord := ⟨[("fldName", JsValue.str "v")]⟩

/-!
Theorems.
-/

/-- C3: for every rule tree and answer map, `shouldShowQuestion` returns
true when the rule is absent or its condition list is empty; with
`logic = AND` it is true iff every condition individually evaluates
true; with `logic = OR` (and a nonempty condition list, the empty list
being carved out as always-true) it is true iff at least one condition
evaluates true. -/
theorem C3_evaluate_logic :
    (∀ answers, shouldShowQuestion none answers = true)
    ∧ (∀ answers logic, shouldShowQuestion (some ⟨logic, []⟩) answers = true)
    ∧ (∀ answers conds,
        shouldShowQuestion (some ⟨"AND", conds⟩) answers = true ↔
          ∀ c ∈ conds, evalCondition answers c = true)
    ∧ (∀ answers conds, conds ≠ [] →
        (shouldShowQuestion (some ⟨"OR", conds⟩) answers = true ↔
          ∃ c ∈ conds, evalCondition answers c = true)) := by
  refine ⟨fun answers => rfl, fun answers logic => rfl, ?_, ?_⟩
  · intro answers conds
    cases conds with
    | nil => simp [shouldShowQuestion]
    | cons c cs =>
      simp [shouldShowQuestion, List.all_map, List.all_eq_true]
  · intro answers conds hne
    cases conds with
    | nil => exact absurd rfl hne
    | cons c cs =>
      simp [shouldShowQuestion, List.any_map, List.any_eq_true]

/-- Witness for C3 at a concrete one-condition OR rule. -/
theorem C3_evaluate_logic_witness :
    ([(⟨"a", "equals", JsValue.str "x"⟩ : Condition)] ≠ []) ∧
      (shouldShowQuestion (some ⟨"OR", [⟨"a", "equals", JsValue.str "x"⟩]⟩)
          [("a", JsValue.str "x")] = true ↔
        ∃ c ∈ [(⟨"a", "equals", JsValue.str "x"⟩ : Condition)],
          evalCondition [("a", JsValue.str "x")] c = true) :=
  ⟨by simp, C3_evaluate_logic.2.2.2 [("a", JsValue.str "x")]
    [⟨"a", "equals", JsValue.str "x"⟩] (by simp)⟩

/-- C4: a condition whose referenced answer is absent, null, or the
empty string evaluates to false, for every operator (known or not). -/
theorem C4_missing_answer_condition_false :
    ∀ answers (c : Condition),
      (lookupAnswer answers c.questionKey = none ∨
       lookupAnswer answers c.questionKey = some JsValue.null ∨
       lookupAnswer answers c.questionKey = some (JsValue.str "")) →
      evalCondition answers c = false := by
  intro answers c h
  unfold evalCondition
  rcases h with h | h | h <;> rw [h] <;> cases hop : isKnownOperator c.operator <;> simp

/-- Witness for C4: the `notContains` operator with an absent answer. -/
theorem C4_missing_answer_condition_false_witness :
    (lookupAnswer [] "k" = none ∨
     lookupAnswer [] "k" = some JsValue.null ∨
     lookupAnswer [] "k" = some (JsValue.str "")) ∧
      evalCondition [] ⟨"k", "notContains", JsValue.str "z"⟩ = false :=
  ⟨Or.inl rfl, C4_missing_answer_condition_false [] ⟨"k", "notContains", JsValue.str "z"⟩
    (Or.inl rfl)⟩

/-- C8: the retry scan of `retryFailedSyncs` selects only Responses with
status failed and strictly fewer than `maxRetries` sync attempts, never
more than `limit` of them; a failed Response whose attempts counter has
reached `maxRetries` is excluded. -/
theorem C8_retry_selection :
    (∀ limit db r, r ∈ selectRetryCandidates limit db →
      r.status = RStatus.failed ∧ r.syncStatus.syncAttempts < maxRetries ∧ r ∈ db)
    ∧ (∀ limit db r, r ∈ db → r.status = RStatus.failed →
        r.syncStatus.syncAttempts = maxRetries → r ∉ selectRetryCandidates limit db)
    ∧ (∀ limit db, (selectRetryCandidates limit db).length ≤ limit) := by
  have hmem : ∀ limit db r, r ∈ selectRetryCandidates limit db →
      r.status = RStatus.failed ∧ r.syncStatus.syncAttempts < maxRetries ∧ r ∈ db := by
    intro limit db r hr
    have h1 := List.take_subset limit _ hr
    have h2 := List.mem_filter.mp h1
    have h3 := h2.2
    simp only [Bool.and_eq_true, decide_eq_true_eq] at h3
    exact ⟨h3.1, h3.2, h2.1⟩
  refine ⟨hmem, ?_, ?_⟩
  · intro limit db r _ _ hcap hsel
    have := (hmem limit db r hsel).2.1
    omega
  · intro limit db
    exact List.length_take_le limit _

/-- Witness for C8: a failed Response with `syncAttempts = maxRetries`
is not selected. -/
theorem C8_retry_selection_witness :
    (⟨"f", "u", "r1", RStatus.failed, [], ⟨none, 3, none⟩⟩ : Resp) ∈
        [(⟨"f", "u", "r1", RStatus.failed, [], ⟨none, 3, none⟩⟩ : Resp)] ∧
      (⟨"f", "u", "r1", RStatus.failed, [], ⟨none, 3, none⟩⟩ : Resp).status = RStatus.failed ∧
      (⟨"f", "u", "r1", RStatus.failed, [], ⟨none, 3, none⟩⟩ : Resp).syncStatus.syncAttempts =
        maxRetries ∧
      (⟨"f", "u", "r1", RStatus.failed, [], ⟨none, 3, none⟩⟩ : Resp) ∉
        selectRetryCandidates 5 [⟨"f", "u", "r1", RStatus.failed, [], ⟨none, 3, none⟩⟩] :=
  ⟨List.mem_singleton.mpr rfl, rfl, rfl,
    C8_retry_selection.2.1 5 [⟨"f", "u", "r1", RStatus.failed, [], ⟨none, 3, none⟩⟩]
      ⟨"f", "u", "r1", RStatus.failed, [], ⟨none, 3, none⟩⟩
      (List.mem_singleton.mpr rfl) rfl rfl⟩

/-- The switch of `mapAirtableField` and the `airtableTypeMap` object of
`FormValidator` encode the same (external type → internal type) table. -/
theorem mapType_lookup_agree : ∀ t, mapAirtableFieldType t = lookupTypeMap t := by
  intro t
  by_cases h1 : t = "singleLineText"
  · subst h1; rfl
  by_cases h2 : t = "email"
  · subst h2; rfl
  by_cases h3 : t = "url"
  · subst h3; rfl
  by_cases h4 : t = "multilineText"
  · subst h4; rfl
  by_cases h5 : t = "richText"
  · subst h5; rfl
  by_cases h6 : t = "singleSelect"
  · subst h6; rfl
  by_cases h7 : t = "multipleSelects"
  · subst h7; rfl
  by_cases h8 : t = "multipleAttachments"
  · subst h8; rfl
  simp [mapAirtableFieldType, lookupTypeMap, airtableTypeMap, List.find?,
    h1, h2, h3, h4, h5, h6, h7, h8,
    beq_eq_false_iff_ne.mpr (Ne.symm h1), beq_eq_false_iff_ne.mpr (Ne.symm h2),
    beq_eq_false_iff_ne.mpr (Ne.symm h3), beq_eq_false_iff_ne.mpr (Ne.symm h4),
    beq_eq_false_iff_ne.mpr (Ne.symm h5), beq_eq_false_iff_ne.mpr (Ne.symm h6),
    beq_eq_false_iff_ne.mpr (Ne.symm h7), beq_eq_false_iff_ne.mpr (Ne.symm h8)]

/-- C9: the field mapper realises the fixed type table — single-line
text, email and url map to shortText; multi-line and rich text to
longText; single select to singleSelect; multiple select to multiSelect;
multiple attachments to attachment — every other external type maps to
the unsupported marker (`null`), the validator's own map agrees, and a
question built on an unsupported field is rejected for every declared
question type. -/
theorem C9_field_type_mapping :
    (mapAirtableFieldType "singleLineText" = some "shortText" ∧
     mapAirtableFieldType "email" = some "shortText" ∧
     mapAirtableFieldType "url" = some "shortText" ∧
     mapAirtableFieldType "multilineText" = some "longText" ∧
     mapAirtableFieldType "richText" = some "longText" ∧
     mapAirtableFieldType "singleSelect" = some "singleSelect" ∧
     mapAirtableFieldType "multipleSelects" = some "multiSelect" ∧
     mapAirtableFieldType "multipleAttachments" = some "attachment")
    ∧ (∀ t, t ∉ supportedAirtableTypes → mapAirtableFieldType t = none)
    ∧ (∀ t, mapAirtableFieldType t = lookupTypeMap t)
    ∧ (∀ t qType, mapAirtableFieldType t = none → questionTypeAccepted qType t = false) := by
  have hnone : ∀ t, t ∉ supportedAirtableTypes → mapAirtableFieldType t = none := by
    intro t h
    simp only [supportedAirtableTypes, List.mem_cons, List.not_mem_nil, or_false,
      not_or] at h
    obtain ⟨h1, h2, h3, h4, h5, h6, h7, h8⟩ := h
    simp [mapAirtableFieldType, h1, h2, h3, h4, h5, h6, h7, h8]
  refine ⟨⟨rfl, rfl, rfl, rfl, rfl, rfl, rfl, rfl⟩, hnone, mapType_lookup_agree, ?_⟩
  intro t qType h
  have hl : lookupTypeMap t = none := (mapType_lookup_agree t).symm.trans h
  unfold questionTypeAccepted
  rw [h, hl]
  rfl

/-- Witness for C9: the `checkbox` external type is unsupported and a
shortText question bound to it is rejected. -/
theorem C9_field_type_mapping_witness :
    ("checkbox" ∉ supportedAirtableTypes) ∧
      mapAirtableFieldType "checkbox" = none ∧
      questionTypeAccepted "shortText" "checkbox" = false :=
  ⟨by decide, C9_field_type_mapping.2.1 "checkbox" (by decide),
    C9_field_type_mapping.2.2.2 "checkbox" "shortText" rfl⟩

/-- C10: with no webhook shared secret configured, `verifySignature`
returns true for every payload and signature (including a missing one),
and the webhook handler processes the request without any signature
check — the response depends only on the processing outcome. -/
theorem C10_no_secret_skips_verification :
    (∀ hmacHex payload sig, verifySignature none hmacHex payload sig = Except.ok true)
    ∧ (∀ hmacHex sig payload,
        handleWebhook none hmacHex sig payload (Except.ok ()) = ⟨200, true, none⟩)
    ∧ (∀ hmacHex sig payload e,
        handleWebhook none hmacHex sig payload (Except.error e) = ⟨200, false, some e⟩) :=
  ⟨fun _ _ _ => rfl, fun _ _ _ => rfl, fun _ _ _ _ => rfl⟩

/-- C2 counterexample: with a secret configured, a signature that does
not match the payload's digest but has a different length makes
`crypto.timingSafeEqual` throw, so the handler answers 200 (with
`success:false`), not the 401 the claim requires for every mismatching
signature. -/
theorem C2_counterexample :
    handleWebhook (some "sec") stubDigest (some "dead") "payload" (Except.ok ()) =
      ⟨200, false, some "Input buffers must have the same byte length"⟩
    ∧ "dead" ≠ stubDigest "sec" "payload" := by
  constructor
  · rfl
  · decide

/-- C2 amended: with a configured secret, a present signature of the
same byte length as the expected digest that does not match it yields
401 with no processing; a missing signature header or one of a different
length makes the buffer comparison throw, which the handler answers with
200 and `success:false` (still without processing); and once the
signature verifies, a downstream processing exception yields 200 with
`success:false` and the error text, never a 5xx. -/
theorem C2_webhook_status_amended :
    (∀ secret hmacHex sig payload processR,
        sig.length = (hmacHex secret payload).length →
        sig ≠ hmacHex secret payload →
        handleWebhook (some secret) hmacHex (some sig) payload processR =
          ⟨401, false, some "Invalid signature"⟩)
    ∧ (∀ secret hmacHex sig payload processR,
        sig.length ≠ (hmacHex secret payload).length →
        handleWebhook (some secret) hmacHex (some sig) payload processR =
          ⟨200, false, some "Input buffers must have the same byte length"⟩)
    ∧ (∀ secret hmacHex payload processR,
        handleWebhook (some secret) hmacHex none payload processR =
          ⟨200, false, some "The first argument must be of type string or an instance of Buffer"⟩)
    ∧ (∀ secret hmacHex payload e,
        handleWebhook (some secret) hmacHex (some (hmacHex secret payload)) payload
          (Except.error e) = ⟨200, false, some e⟩)
    ∧ (∀ secret hmacHex payload,
        handleWebhook (some secret) hmacHex (some (hmacHex secret payload)) payload
          (Except.ok ()) = ⟨200, true, none⟩) := by
  refine ⟨?_, ?_, fun _ _ _ _ => rfl, ?_, ?_⟩
  · intro secret hmacHex sig payload processR hlen hne
    simp [handleWebhook, verifySignature, timingSafeEqual, hlen,
      beq_eq_false_iff_ne.mpr hne]
  · intro secret hmacHex sig payload processR hlen
    simp [handleWebhook, verifySignature, timingSafeEqual, hlen]
  · intro secret hmacHex payload e
    simp [handleWebhook, verifySignature, timingSafeEqual]
  · intro secret hmacHex payload
    simp [handleWebhook, verifySignature, timingSafeEqual]

/-- Witness for C2 amended: a same-length (64-byte) non-matching
signature is answered with 401, and a short one with 200. -/
theorem C2_webhook_status_amended_witness :
    (String.mk (List.replicate 64 'b')).length = (stubDigest "sec" "p").length ∧
      String.mk (List.replicate 64 'b') ≠ stubDigest "sec" "p" ∧
      handleWebhook (some "sec") stubDigest (some (String.mk (List.replicate 64 'b'))) "p"
          (Except.ok ()) = ⟨401, false, some "Invalid signature"⟩ ∧
      "xyz".length ≠ (stubDigest "sec" "p").length ∧
      handleWebhook (some "sec") stubDigest (some "xyz") "p" (Except.ok ()) =
        ⟨200, false, some "Input buffers must have the same byte length"⟩ :=
  ⟨by decide, by decide,
    C2_webhook_status_amended.1 "sec" stubDigest (String.mk (List.replicate 64 'b')) "p"
      (Except.ok ()) (by decide) (by decide),
    by decide,
    C2_webhook_status_amended.2.1 "sec" stubDigest "xyz" "p" (Except.ok ()) (by decide)⟩

/-- A Response found by record id carries that record id. -/
theorem findResp_eq_rid {db : List Resp} {rid : String} {r : Resp}
    (h : findResp db rid = some r) : r.airtableRecordId = rid := by
  have := List.find?_some h
  simpa using this

/-- Lookup on a cons cell. -/
theorem findResp_cons (x : Resp) (rest : List Resp) (rid : String) :
    findResp (x :: rest) rid =
      if x.airtableRecordId == rid then some x else findResp rest rid := by
  simp only [findResp, List.find?_cons]
  cases h : x.airtableRecordId == rid <;> simp [h]

/-- Replacement on a cons cell. -/
theorem replaceFirst_cons (x : Resp) (rest : List Resp) (rid : String) (r' : Resp) :
    replaceFirst (x :: rest) rid r' =
      if x.airtableRecordId == rid then r' :: rest else x :: replaceFirst rest rid r' := rfl

/-- Multiplicity on a cons cell. -/
theorem countRid_cons (x : Resp) (rest : List Resp) (rid2 : String) :
    countRid (x :: rest) rid2 =
      (if x.airtableRecordId == rid2 then 1 else 0) + countRid rest rid2 := by
  simp only [countRid, List.filter_cons]
  cases h : x.airtableRecordId == rid2 <;> simp [h, Nat.add_comm]

/-- Replacing the found Response makes the next lookup return the
replacement. -/
theorem findResp_replaceFirst_self {db : List Resp} {rid : String} {r r' : Resp}
    (h : findResp db rid = some r) (h' : r'.airtableRecordId = rid) :
    findResp (replaceFirst db rid r') rid = some r' := by
  induction db with
  | nil => simp [findResp] at h
  | cons x rest ih =>
    by_cases hx : x.airtableRecordId = rid
    · have hxb : (x.airtableRecordId == rid) = true := beq_iff_eq.mpr hx
      have hrb : (r'.airtableRecordId == rid) = true := beq_iff_eq.mpr h'
      rw [replaceFirst_cons, hxb, if_pos rfl, findResp_cons, hrb, if_pos rfl]
    · have hxb : (x.airtableRecordId == rid) = false := beq_eq_false_iff_ne.mpr hx
      rw [findResp_cons, hxb] at h
      simp only [Bool.false_eq_true, if_neg, if_false] at h
      rw [replaceFirst_cons, hxb]
      simp only [Bool.false_eq_true, if_false]
      rw [findResp_cons, hxb]
      simp only [Bool.false_eq_true, if_false]
      exact ih h

/-- Replacing the Response linked to one record id leaves lookups of
every other record id unchanged. -/
theorem findResp_replaceFirst_other {db : List Resp} {rid rid' : String} {r' : Resp}
    (hne : rid' ≠ rid) (h' : r'.airtableRecordId = rid) :
    findResp (replaceFirst db rid r') rid' = findResp db rid' := by
  induction db with
  | nil => rfl
  | cons x rest ih =>
    by_cases hx : x.airtableRecordId = rid
    · have hxb : (x.airtableRecordId == rid) = true := beq_iff_eq.mpr hx
      have h1 : (r'.airtableRecordId == rid') = false :=
        beq_eq_false_iff_ne.mpr (by rw [h']; exact fun hc => hne hc.symm)
      have h2 : (x.airtableRecordId == rid') = false :=
        beq_eq_false_iff_ne.mpr (by rw [hx]; exact fun hc => hne hc.symm)
      rw [replaceFirst_cons, hxb, if_pos rfl, findResp_cons, h1, findResp_cons, h2]
      simp
    · have hxb : (x.airtableRecordId == rid) = false := beq_eq_false_iff_ne.mpr hx
      rw [replaceFirst_cons, hxb]
      simp only [Bool.false_eq_true, if_false]
      rw [findResp_cons, findResp_cons]
      cases h3 : x.airtableRecordId == rid' with
      | true => simp
      | false => simpa using ih

/-- Replacing a Response by one with the same record id preserves the
per-id multiplicity for every id. -/
theorem countRid_replaceFirst {db : List Resp} {rid : String} {r' : Resp}
    (h' : r'.airtableRecordId = rid) (rid2 : String) :
    countRid (replaceFirst db rid r') rid2 = countRid db rid2 := by
  induction db with
  | nil => rfl
  | cons x rest ih =>
    by_cases hx : x.airtableRecordId = rid
    · have hxb : (x.airtableRecordId == rid) = true := beq_iff_eq.mpr hx
      have hsame : (r'.airtableRecordId == rid2) = (x.airtableRecordId == rid2) := by
        rw [h', hx]
      rw [replaceFirst_cons, hxb, if_pos rfl, countRid_cons, countRid_cons, hsame]
    · have hxb : (x.airtableRecordId == rid) = false := beq_eq_false_iff_ne.mpr hx
      rw [replaceFirst_cons, hxb]
      simp only [Bool.false_eq_true, if_false]
      rw [countRid_cons, countRid_cons, ih]

/-- Appending one Response adds exactly its own record id. -/
theorem countRid_append (db : List Resp) (r' : Resp) (rid2 : String) :
    countRid (db ++ [r']) rid2 =
      countRid db rid2 + (if r'.airtableRecordId == rid2 then 1 else 0) := by
  simp only [countRid, List.filter_append, List.length_append]
  cases h : r'.airtableRecordId == rid2 <;> simp [List.filter_cons, h]

/-- No Response found for a record id means the id has multiplicity 0. -/
theorem countRid_zero_of_findResp_none {db : List Resp} {rid : String}
    (h : findResp db rid = none) : countRid db rid = 0 := by
  have h' := List.find?_eq_none.mp h
  have : db.filter (fun r => r.airtableRecordId == rid) = [] :=
    List.filter_eq_nil_iff.mpr (by intro a ha; simpa using h' a ha)
  simp [countRid, this]

/-- The catch block preserves per-id multiplicities. -/
theorem countRid_syncCatch (recordId msg : String) (catchOk : Bool) (db : List Resp)
    (rid2 : String) :
    countRid (syncCatch recordId msg catchOk db) rid2 = countRid db rid2 := by
  unfold syncCatch
  cases h : findResp db recordId with
  | none => rfl
  | some r =>
    cases catchOk with
    | false => rfl
    | true =>
      have hrid : (Resp.mk r.formId r.userId r.airtableRecordId RStatus.failed r.answers
          (RSyncStatus.mk r.syncStatus.lastSyncedAt (r.syncStatus.syncAttempts + 1)
            (some msg))).airtableRecordId = recordId := by
        show r.airtableRecordId = recordId
        exact findResp_eq_rid h
      simpa using countRid_replaceFirst hrid rid2

/-- The catch block leaves lookups of other record ids unchanged. -/
theorem findResp_syncCatch_other {recordId rid' : String} (msg : String) (catchOk : Bool)
    (db : List Resp) (hne : rid' ≠ recordId) :
    findResp (syncCatch recordId msg catchOk db) rid' = findResp db rid' := by
  unfold syncCatch
  cases h : findResp db recordId with
  | none => rfl
  | some r =>
    cases catchOk with
    | false => rfl
    | true =>
      have hrid : (Resp.mk r.formId r.userId r.airtableRecordId RStatus.failed r.answers
          (RSyncStatus.mk r.syncStatus.lastSyncedAt (r.syncStatus.syncAttempts + 1)
            (some msg))).airtableRecordId = recordId := by
        show r.airtableRecordId = recordId
        exact findResp_eq_rid h
      simpa using findResp_replaceFirst_other hne hrid

/-- Appending a Response for a different record id does not affect a
lookup. -/
theorem findResp_append_single (db : List Resp) (r' : Resp) (rid' : String)
    (h : (r'.airtableRecordId == rid') = false) :
    findResp (db ++ [r']) rid' = findResp db rid' := by
  induction db with
  | nil => simp [findResp, List.find?, h]
  | cons x rest ih =>
    rw [List.cons_append, findResp_cons, findResp_cons]
    cases hx : x.airtableRecordId == rid' <;> simp [hx, ih]

/-- On the success path (form and valid user resolved, record fetched,
save persisted), `syncSingleRecord` updates the already-linked Response
in place: answers overwritten from the fetched record, status synced,
attempts incremented, `lastSyncedAt` refreshed, `syncError` untouched. -/
theorem sync_update_eq {forms : List Form} {users : List User} {form : Form} {user : User}
    {db : List Resp} {r0 : Resp} {rec : ARecord} {now : Nat}
    {baseId tableId recordId : String} {catchOk : Bool}
    (hform : forms.find? (fun f => f.airtableBaseId == baseId &&
      f.airtableTableId == tableId && f.isActive) = some form)
    (huser : users.find? (fun u => u.id == form.userId) = some user)
    (htok : user.tokenExpired = false)
    (hlink : findResp db recordId = some r0) :
    syncSingleRecord forms users ⟨Except.ok (some rec), none, catchOk⟩ now
        baseId tableId recordId db =
      replaceFirst db recordId
        (Resp.mk r0.formId r0.userId r0.airtableRecordId RStatus.synced
          (buildAnswers form.questions rec now)
          (RSyncStatus.mk (some now) (r0.syncStatus.syncAttempts + 1)
            r0.syncStatus.syncError)) := by
  simp only [syncSingleRecord, hform, huser, htok, hlink, Bool.false_eq_true, if_false]

/-- Every `syncSingleRecord` call preserves the invariant that each
`airtableRecordId` occurs at most once — the unique index on
`airtableRecordId` is never violated. -/
theorem sync_preserves_unique (forms : List Form) (users : List User) (env : SyncEnv)
    (now : Nat) (baseId tableId recordId : String) (db : List Resp)
    (h : ∀ rid2, countRid db rid2 ≤ 1) :
    ∀ rid2, countRid (syncSingleRecord forms users env now baseId tableId recordId db) rid2 ≤ 1 := by
  intro rid2
  unfold syncSingleRecord
  split
  · exact h rid2
  · split
    · exact h rid2
    · split
      · exact h rid2
      · split
        · rw [countRid_syncCatch]; exact h rid2
        · exact h rid2
        · split
          · rename_i r heq
            split
            · have hrid := findResp_eq_rid heq
              rw [countRid_replaceFirst (by simpa using hrid) rid2]
              exact h rid2
            · rw [countRid_syncCatch]; exact h rid2
          · rename_i hnone
            split
            · rw [countRid_append]
              by_cases hr : recordId = rid2
              · subst hr
                have h0 := countRid_zero_of_findResp_none hnone
                simp [h0]
              · have : ((recordId : String) == rid2) = false := beq_eq_false_iff_ne.mpr hr
                simp only [this, Bool.false_eq_true, if_false, Nat.add_zero]
                exact h rid2
            · rw [countRid_syncCatch]; exact h rid2

/-- A `syncSingleRecord` call for one record id never changes the
Response a lookup of any other record id returns: the reconciliation of
one record cannot disturb its siblings. -/
theorem findResp_sync_frame (forms : List Form) (users : List User) (env : SyncEnv)
    (now : Nat) (baseId tableId recordId : String) (db : List Resp) (rid' : String)
    (hne : rid' ≠ recordId) :
    findResp (syncSingleRecord forms users env now baseId tableId recordId db) rid' =
      findResp db rid' := by
  unfold syncSingleRecord
  split
  · rfl
  · split
    · rfl
    · split
      · rfl
      · split
        · exact findResp_syncCatch_other _ _ _ hne
        · rfl
        · split
          · rename_i r heq
            split
            · have hrid := findResp_eq_rid heq
              exact findResp_replaceFirst_other hne (by simpa using hrid)
            · exact findResp_syncCatch_other _ _ _ hne
          · split
            · exact findResp_append_single _ _ _ (beq_eq_false_iff_ne.mpr
                (fun hc => hne hc.symm))
            · exact findResp_syncCatch_other _ _ _ hne

/-- With form and user resolved, a throwing fetch routes the call into
the catch block. -/
theorem sync_error_eq {forms : List Form} {users : List User} {form : Form} {user : User}
    {db : List Resp} {now : Nat} {baseId tableId recordId msg : String}
    {saveMainErr : Option String} {catchOk : Bool}
    (hform : forms.find? (fun f => f.airtableBaseId == baseId &&
      f.airtableTableId == tableId && f.isActive) = some form)
    (huser : users.find? (fun u => u.id == form.userId) = some user)
    (htok : user.tokenExpired = false) :
    syncSingleRecord forms users ⟨Except.error msg, saveMainErr, catchOk⟩ now
        baseId tableId recordId db = syncCatch recordId msg catchOk db := by
  simp only [syncSingleRecord, hform, huser, htok, Bool.false_eq_true, if_false]

/-- The catch block on a linked Response persists the failure marker. -/
theorem syncCatch_found_eq {db : List Resp} {recordId msg : String} {r0 : Resp}
    (hlink : findResp db recordId = some r0) :
    syncCatch recordId msg true db =
      replaceFirst db recordId
        (Resp.mk r0.formId r0.userId r0.airtableRecordId RStatus.failed r0.answers
          (RSyncStatus.mk r0.syncStatus.lastSyncedAt (r0.syncStatus.syncAttempts + 1)
            (some msg))) := by
  simp only [syncCatch, hlink, if_pos]

/-- With form and valid user resolved and the record fetched, a throwing
`response.save()` on the update path routes the call into the catch
block, which re-reads the still-unmodified persisted document. -/
theorem sync_save_error_eq {forms : List Form} {users : List User} {form : Form}
    {user : User} {db : List Resp} {r0 : Resp} {rec : ARecord} {now : Nat}
    {baseId tableId recordId msg : String} {catchOk : Bool}
    (hform : forms.find? (fun f => f.airtableBaseId == baseId &&
      f.airtableTableId == tableId && f.isActive) = some form)
    (huser : users.find? (fun u => u.id == form.userId) = some user)
    (htok : user.tokenExpired = false)
    (hlink : findResp db recordId = some r0) :
    syncSingleRecord forms users ⟨Except.ok (some rec), some msg, catchOk⟩ now
        baseId tableId recordId db = syncCatch recordId msg catchOk db := by
  simp only [syncSingleRecord, hform, huser, htok, hlink, Bool.false_eq_true, if_false]

/-- C1: for a record already linked to a local Response, two successive
`syncSingleRecord` calls for the unchanged external record produce a
Response with the same answers as a single call (both are exactly the
answers mapped from the fetched record), with `syncAttempts` incremented
by exactly 2; no second Response with the same `externalRecordId` is
created (per-id multiplicities are unchanged), and every
`syncSingleRecord` call — on any environment — preserves uniqueness of
`airtableRecordId`.  Both calls are modelled at the same clock value
`now`, matching the back-to-back calls of the claim. -/
theorem C1_sync_idempotent :
    (∀ (forms : List Form) (users : List User) (form : Form) (user : User)
        (db : List Resp) (r0 : Resp) (rec : ARecord) (now : Nat)
        (baseId tableId recordId : String) (catchOk : Bool),
      forms.find? (fun f => f.airtableBaseId == baseId &&
        f.airtableTableId == tableId && f.isActive) = some form →
      users.find? (fun u => u.id == form.userId) = some user →
      user.tokenExpired = false →
      findResp db recordId = some r0 →
      (let env : SyncEnv := ⟨Except.ok (some rec), none, catchOk⟩
       let db1 := syncSingleRecord forms users env now baseId tableId recordId db
       let db2 := syncSingleRecord forms users env now baseId tableId recordId db1
       ∃ r1 r2,
         findResp db1 recordId = some r1 ∧
         findResp db2 recordId = some r2 ∧
         r1.answers = buildAnswers form.questions rec now ∧
         r2.answers = r1.answers ∧
         r2.syncStatus.syncAttempts = r0.syncStatus.syncAttempts + 2 ∧
         (∀ rid2, countRid db2 rid2 = countRid db rid2)))
    ∧ (∀ forms users env now baseId tableId recordId db,
        (∀ rid2, countRid db rid2 ≤ 1) →
        ∀ rid2, countRid (syncSingleRecord forms users env now baseId tableId recordId db)
          rid2 ≤ 1) := by
  refine ⟨?_, sync_preserves_unique⟩
  intro forms users form user db r0 rec now baseId tableId recordId catchOk
    hform huser htok hlink
  intro env db1 db2
  have h1 : db1 = replaceFirst db recordId
      (Resp.mk r0.formId r0.userId r0.airtableRecordId RStatus.synced
        (buildAnswers form.questions rec now)
        (RSyncStatus.mk (some now) (r0.syncStatus.syncAttempts + 1)
          r0.syncStatus.syncError)) :=
    sync_update_eq hform huser htok hlink
  have hrid0 : (Resp.mk r0.formId r0.userId r0.airtableRecordId RStatus.synced
      (buildAnswers form.questions rec now)
      (RSyncStatus.mk (some now) (r0.syncStatus.syncAttempts + 1)
        r0.syncStatus.syncError)).airtableRecordId = recordId := by
    show r0.airtableRecordId = recordId
    exact findResp_eq_rid hlink
  have hfind1 : findResp db1 recordId = some (Resp.mk r0.formId r0.userId
      r0.airtableRecordId RStatus.synced (buildAnswers form.questions rec now)
      (RSyncStatus.mk (some now) (r0.syncStatus.syncAttempts + 1)
        r0.syncStatus.syncError)) := by
    rw [h1]
    exact findResp_replaceFirst_self hlink hrid0
  have h2 : db2 = replaceFirst db1 recordId
      (Resp.mk r0.formId r0.userId r0.airtableRecordId RStatus.synced
        (buildAnswers form.questions rec now)
        (RSyncStatus.mk (some now) (r0.syncStatus.syncAttempts + 2)
          r0.syncStatus.syncError)) :=
    sync_update_eq hform huser htok hfind1
  have hfind2 : findResp db2 recordId = some (Resp.mk r0.formId r0.userId
      r0.airtableRecordId RStatus.synced (buildAnswers form.questions rec now)
      (RSyncStatus.mk (some now) (r0.syncStatus.syncAttempts + 2)
        r0.syncStatus.syncError)) := by
    rw [h2]
    exact findResp_replaceFirst_self hfind1 hrid0
  have hrid1 : (Resp.mk r0.formId r0.userId r0.airtableRecordId RStatus.synced
      (buildAnswers form.questions rec now)
      (RSyncStatus.mk (some now) (r0.syncStatus.syncAttempts + 2)
        r0.syncStatus.syncError)).airtableRecordId = recordId := by
    show r0.airtableRecordId = recordId
    exact findResp_eq_rid hlink
  refine ⟨_, _, hfind1, hfind2, rfl, rfl, rfl, ?_⟩
  intro rid2
  rw [h2, countRid_replaceFirst hrid1 rid2, h1, countRid_replaceFirst hrid0 rid2]

/-- Witness for C1 on a concrete form, user, record and database. -/
theorem C1_sync_idempotent_witness :
    ([demoForm].find? (fun f => f.airtableBaseId == "base1" &&
        f.airtableTableId == "tbl1" && f.isActive) = some demoForm) ∧
    ([demoUser].find? (fun u => u.id == demoForm.userId) = some demoUser) ∧
    (demoUser.tokenExpired = false) ∧
    (findResp [demoResp] "rec1" = some demoResp) ∧
    (let env : SyncEnv := ⟨Except.ok (some demoRecord), none, true⟩
     let db1 := syncSingleRecord [demoForm] [demoUser] env 5 "base1" "tbl1" "rec1" [demoResp]
     let db2 := syncSingleRecord [demoForm] [demoUser] env 5 "base1" "tbl1" "rec1" db1
     ∃ r1 r2,
       findResp db1 "rec1" = some r1 ∧
       findResp db2 "rec1" = some r2 ∧
       r1.answers = buildAnswers demoForm.questions demoRecord 5 ∧
       r2.answers = r1.answers ∧
       r2.syncStatus.syncAttempts = demoResp.syncStatus.syncAttempts + 2 ∧
       (∀ rid2, countRid db2 rid2 = countRid [demoResp] rid2)) :=
  ⟨rfl, rfl, rfl, rfl,
    C1_sync_idempotent.1 [demoForm] [demoUser] demoForm demoUser [demoResp] demoResp
      demoRecord 5 "base1" "tbl1" "rec1" true rfl rfl rfl rfl⟩

/-- C6: with form and user resolved, an exception thrown by the external
fetch — and equally one thrown by `response.save()` while persisting the
mapped record — marks the linked Response failed, records the error
text, increments the attempts counter and does not escape
`syncSingleRecord` (which returns a database unconditionally);
reconciling one record never changes the Response of any other record
id, and the batch driver applies `syncSingleRecord` to every record id
of the batch unconditionally, so siblings of a failed record still
process.  (Mapping is pure in the code — field access plus array pushes
— so fetch and persistence are the two fallible stages of the claim.) -/
theorem C6_sync_failure_contained :
    (∀ (forms : List Form) (users : List User) (form : Form) (user : User)
        (db : List Resp) (r0 : Resp) (now : Nat) (baseId tableId recordId msg : String)
        (saveMainErr : Option String),
      forms.find? (fun f => f.airtableBaseId == baseId &&
        f.airtableTableId == tableId && f.isActive) = some form →
      users.find? (fun u => u.id == form.userId) = some user →
      user.tokenExpired = false →
      findResp db recordId = some r0 →
      findResp (syncSingleRecord forms users ⟨Except.error msg, saveMainErr, true⟩ now
          baseId tableId recordId db) recordId =
        some (Resp.mk r0.formId r0.userId r0.airtableRecordId RStatus.failed r0.answers
          (RSyncStatus.mk r0.syncStatus.lastSyncedAt (r0.syncStatus.syncAttempts + 1)
            (some msg))))
    ∧ (∀ forms users env now baseId tableId recordId db rid', rid' ≠ recordId →
        findResp (syncSingleRecord forms users env now baseId tableId recordId db) rid' =
          findResp db rid')
    ∧ (∀ forms users envOf now baseId tableId db rid ids,
        processBatch forms users envOf now baseId tableId (rid :: ids) db =
          processBatch forms users envOf now baseId tableId ids
            (syncSingleRecord forms users (envOf rid) now baseId tableId rid db))
    ∧ (∀ (forms : List Form) (users : List User) (form : Form) (user : User)
        (db : List Resp) (r0 : Resp) (rec : ARecord) (now : Nat)
        (baseId tableId recordId msg : String),
      forms.find? (fun f => f.airtableBaseId == baseId &&
        f.airtableTableId == tableId && f.isActive) = some form →
      users.find? (fun u => u.id == form.userId) = some user →
      user.tokenExpired = false →
      findResp db recordId = some r0 →
      findResp (syncSingleRecord forms users ⟨Except.ok (some rec), some msg, true⟩ now
          baseId tableId recordId db) recordId =
        some (Resp.mk r0.formId r0.userId r0.airtableRecordId RStatus.failed r0.answers
          (RSyncStatus.mk r0.syncStatus.lastSyncedAt (r0.syncStatus.syncAttempts + 1)
            (some msg)))) := by
  refine ⟨?_, findResp_sync_frame, fun _ _ _ _ _ _ _ _ _ => rfl, ?_⟩
  · intro forms users form user db r0 now baseId tableId recordId msg saveMainErr
      hform huser htok hlink
    rw [sync_error_eq hform huser htok, syncCatch_found_eq hlink]
    refine findResp_replaceFirst_self hlink ?_
    show r0.airtableRecordId = recordId
    exact findResp_eq_rid hlink
  · intro forms users form user db r0 rec now baseId tableId recordId msg
      hform huser htok hlink
    rw [sync_save_error_eq hform huser htok hlink, syncCatch_found_eq hlink]
    refine findResp_replaceFirst_self hlink ?_
    show r0.airtableRecordId = recordId
    exact findResp_eq_rid hlink

/-- Witness for C6: on the demo database, a fetch failure and a
persistence (save) failure each mark the linked Response failed with the
error recorded and the attempts counter incremented, and a sync leaves
an unrelated record id's lookup unchanged. -/
theorem C6_sync_failure_contained_witness :
    (findResp [demoResp] "rec1" = some demoResp) ∧
    (findResp (syncSingleRecord [demoForm] [demoUser] ⟨Except.error "boom", none, true⟩ 5
        "base1" "tbl1" "rec1" [demoResp]) "rec1" =
      some (Resp.mk demoResp.formId demoResp.userId demoResp.airtableRecordId RStatus.failed
        demoResp.answers
        (RSyncStatus.mk demoResp.syncStatus.lastSyncedAt
          (demoResp.syncStatus.syncAttempts + 1) (some "boom")))) ∧
    (findResp (syncSingleRecord [demoForm] [demoUser]
        ⟨Except.ok (some demoRecord), some "disk full", true⟩ 5
        "base1" "tbl1" "rec1" [demoResp]) "rec1" =
      some (Resp.mk demoResp.formId demoResp.userId demoResp.airtableRecordId RStatus.failed
        demoResp.answers
        (RSyncStatus.mk demoResp.syncStatus.lastSyncedAt
          (demoResp.syncStatus.syncAttempts + 1) (some "disk full")))) ∧
    ("mismatched" ≠ "rec1") ∧
    (findResp (syncSingleRecord [demoForm] [demoUser] ⟨Except.error "boom", none, true⟩ 5
        "base1" "tbl1" "rec1" [demoResp]) "mismatched" = findResp [demoResp] "mismatched") :=
  ⟨rfl,
    C6_sync_failure_contained.1 [demoForm] [demoUser] demoForm demoUser [demoResp] demoResp
      5 "base1" "tbl1" "rec1" "boom" none rfl rfl rfl rfl,
    C6_sync_failure_contained.2.2.2 [demoForm] [demoUser] demoForm demoUser [demoResp]
      demoResp demoRecord 5 "base1" "tbl1" "rec1" "disk full" rfl rfl rfl rfl,
    by decide,
    C6_sync_failure_contained.2.1 [demoForm] [demoUser] ⟨Except.error "boom", none, true⟩ 5
      "base1" "tbl1" "rec1" [demoResp] "mismatched" (by decide)⟩

/-- C7: a full resync of a 25-record table paged 10 at a time issues
exactly 3 page fetches and, with every record sync succeeding, reports
25 synced and 0 errors; and in every run, a page-level listing failure
increments the error count and terminates the pagination loop
immediately — the page is not retried and no further fetch is issued.
The returned value carries exactly the running `(syncedCount,
errorCount)` pair (plus the final database of the model). -/
theorem C7_pagination :
    (resultCounts (syncAllRecordsForForm [demoForm] [demoUser] demoEnvOf 7 "form1" pager25
        100 []) = some (3, 25, 0))
    ∧ (∀ (forms : List Form) (users : List User) (envOf : String → SyncEnv) (now : Nat)
        (baseId tableId : String)
        (listFn : Option String → Except String (List String × Option String))
        (fuel : Nat) (tok : Option String) (fetches synced errors : Nat) (db : List Resp)
        (e : String),
        listFn tok = Except.error e →
        syncAllLoop forms users envOf now baseId tableId listFn (fuel + 1) tok fetches
          synced errors db = (fetches + 1, synced, errors + 1, db)) := by
  refine ⟨rfl, ?_⟩
  intro forms users envOf now baseId tableId listFn fuel tok fetches synced errors db e herr
  simp only [syncAllLoop, herr]

/-- Witness for C7's page-failure clause on a concrete always-failing
pager. -/
theorem C7_pagination_witness :
    ((fun _ : Option String =>
        (Except.error "boom" : Except String (List String × Option String))) none =
      Except.error "boom") ∧
    syncAllLoop [] [] demoEnvOf 0 "b" "t"
        (fun _ => Except.error "boom") 1 none 0 0 0 [] = (1, 0, 1, []) :=
  ⟨rfl, C7_pagination.2 [] [] demoEnvOf 0 "b" "t" (fun _ => Except.error "boom") 0 none
    0 0 0 [] "boom" rfl⟩

/-- Membership in the deduplicated list, relative to the seen set. -/
theorem mem_dedupFirstAux : ∀ (l seen : List String) (x : String),
    x ∈ dedupFirstAux seen l ↔ x ∈ l ∧ ¬ x ∈ seen := by
  intro l
  induction l with
  | nil => intro seen x; simp [dedupFirstAux]
  | cons k ks ih =>
    intro seen x
    by_cases hk : seen.contains k = true
    · have hkmem : k ∈ seen := by simpa [List.contains, List.elem_iff] using hk
      rw [dedupFirstAux, if_pos hk, ih]
      constructor
      · rintro ⟨hx, hs⟩
        exact ⟨List.mem_cons_of_mem _ hx, hs⟩
      · rintro ⟨hx, hs⟩
        rcases List.mem_cons.mp hx with rfl | hx
        · exact absurd hkmem hs
        · exact ⟨hx, hs⟩
    · have hknmem : ¬ k ∈ seen := by simpa [List.contains, List.elem_iff] using hk
      rw [dedupFirstAux, if_neg hk]
      simp only [List.mem_cons, ih]
      constructor
      · rintro (rfl | ⟨hx, hs⟩)
        · exact ⟨Or.inl rfl, hknmem⟩
        · exact ⟨Or.inr hx, fun hc => hs (Or.inr hc)⟩
      · rintro ⟨rfl | hx, hs⟩
        · exact Or.inl rfl
        · by_cases hxk : x = k
          · exact Or.inl hxk
          · exact Or.inr ⟨hx, by simp [hxk, hs]⟩

/-- Deduplication preserves membership. -/
theorem mem_dedupFirst (l : List String) (x : String) : x ∈ dedupFirst l ↔ x ∈ l := by
  rw [dedupFirst, mem_dedupFirstAux]
  simp

/-- The deduplicated list has no duplicates. -/
theorem nodup_dedupFirstAux : ∀ (l seen : List String), (dedupFirstAux seen l).Nodup := by
  intro l
  induction l with
  | nil => intro seen; simp [dedupFirstAux]
  | cons k ks ih =>
    intro seen
    by_cases hk : seen.contains k = true
    · rw [dedupFirstAux, if_pos hk]; exact ih seen
    · rw [dedupFirstAux, if_neg hk]
      refine List.nodup_cons.mpr ⟨?_, ih (k :: seen)⟩
      intro hc
      exact ((mem_dedupFirstAux ks (k :: seen) k).mp hc).2 (List.mem_cons_self _ _)

theorem nodup_graphKeys (qs : List Question) : (graphKeys qs).Nodup :=
  nodup_dedupFirstAux _ _

/-- Every `dependentBy` edge points at a question key of the graph. -/
theorem dependentBy_subset_keys (qs : List Question) (a b : String)
    (h : b ∈ dependentBy qs a) : b ∈ graphKeys qs := by
  rw [graphKeys, mem_dedupFirst]
  unfold dependentBy at h
  suffices haux : ∀ (l : List Question) (acc : List String),
      b ∈ l.foldl (fun acc q =>
        match q.conditionalRules with
        | none => acc
        | some r => acc ++ r.conditions.filterMap
            (fun c => if c.questionKey = a then some q.questionKey else none)) acc →
      b ∈ acc ∨ b ∈ l.map (fun q => q.questionKey) by
    rcases haux qs [] h with hb | hb
    · simp at hb
    · simpa using hb
  intro l
  induction l with
  | nil => intro acc h'; exact Or.inl h'
  | cons q rest ih =>
    intro acc h'
    rw [List.foldl_cons] at h'
    rcases ih _ h' with hb | hb
    · match hq : q.conditionalRules with
      | none =>
        rw [hq] at hb
        exact Or.inl hb
      | some r =>
        rw [hq] at hb
        rcases List.mem_append.mp hb with hb | hb
        · exact Or.inl hb
        · rcases List.mem_filterMap.mp hb with ⟨c, _, hc⟩
          by_cases hck : c.questionKey = a
          · rw [if_pos hck] at hc
            right
            simp only [List.map_cons, List.mem_cons]
            exact Or.inl (Option.some_injective _ hc).symm
          · rw [if_neg hck] at hc
            exact absurd hc (by simp)
    · right
      simpa [List.map_cons, List.mem_cons] using Or.inr hb

/-- A key of the graph that is unvisited keeps the unvisited count
positive. -/
theorem unvisitedCount_pos {keys visited : List String} {k : String}
    (hk : k ∈ keys) (hnv : ¬ k ∈ visited) : 1 ≤ unvisitedCount keys visited := by
  have hmem : k ∈ keys.filter (fun x => !visited.contains x) := by
    refine List.mem_filter.mpr ⟨hk, ?_⟩
    simp [List.contains, List.elem_iff, hnv]
  exact List.length_pos_of_mem hmem

/-- Growing the visited set cannot increase the unvisited count. -/
theorem unvisitedCount_mono {keys visited visited' : List String}
    (h : ∀ x, x ∈ visited → x ∈ visited') :
    unvisitedCount keys visited' ≤ unvisitedCount keys visited := by
  refine List.Sublist.length_le (List.monotone_filter_right _ ?_)
  intro a ha
  have ha' : ¬ a ∈ visited' := by
    simpa [List.contains, List.elem_iff] using ha
  have hv : ¬ a ∈ visited := fun hc => ha' (h a hc)
  simpa [List.contains, List.elem_iff] using hv

/-- Marking an unvisited key visited strictly decreases the unvisited
count. -/
theorem unvisitedCount_cons_lt {keys visited : List String} {node : String}
    (hk : node ∈ keys) (hnv : ¬ node ∈ visited) :
    unvisitedCount keys (node :: visited) < unvisitedCount keys visited := by
  induction keys with
  | nil => simp at hk
  | cons a rest ih =>
    unfold unvisitedCount
    by_cases ha : a = node
    · subst ha
      have h1 : ((a :: visited).contains a) = true := by
        simp [List.contains, List.elem_iff]
      have h2 : (visited.contains a) = false := by
        simp [List.contains, List.elem_iff, hnv]
      rw [List.filter_cons, List.filter_cons]
      simp only [h1, h2, Bool.not_true, Bool.not_false, Bool.false_eq_true, if_false, if_pos]
      have hmono : unvisitedCount rest (a :: visited) ≤ unvisitedCount rest visited :=
        unvisitedCount_mono (fun x hx => List.mem_cons_of_mem _ hx)
      calc (rest.filter (fun k => !(a :: visited).contains k)).length
          ≤ (rest.filter (fun k => !visited.contains k)).length := hmono
        _ < (rest.filter (fun k => !visited.contains k)).length + 1 := Nat.lt_succ_self _
    · have hsame : ((a :: rest).filter (fun k => !(node :: visited).contains k)).length =
          (rest.filter (fun k => !(node :: visited).contains k)).length +
            (if a ∈ visited then 0 else 1) ∧
          ((a :: rest).filter (fun k => !visited.contains k)).length =
            (rest.filter (fun k => !visited.contains k)).length +
              (if a ∈ visited then 0 else 1) := by
        by_cases hav : a ∈ visited
        · have e1 : ((node :: visited).contains a) = true := by
            simp [List.contains, List.elem_iff, hav]
          have e2 : (visited.contains a) = true := by
            simp [List.contains, List.elem_iff, hav]
          rw [List.filter_cons, List.filter_cons]
          simp [e1, e2, hav]
        · have e1 : ((node :: visited).contains a) = false := by
            simp [List.contains, List.elem_iff, hav, ha]
          have e2 : (visited.contains a) = false := by
            simp [List.contains, List.elem_iff, hav]
          rw [List.filter_cons, List.filter_cons]
          simp [e1, e2, hav, ha]
      have hk' : node ∈ rest := by
        rcases List.mem_cons.mp hk with h | h
        · exact absurd h.symm ha
        · exact h
      have := ih hk'
      unfold unvisitedCount at this
      rw [unvisitedCount] at *
      omega

/-- The unvisited count is bounded by the number of keys. -/
theorem unvisitedCount_le_length (keys visited : List String) :
    unvisitedCount keys visited ≤ keys.length :=
  List.length_filter_le _ _

/-- A chain of dependency edges yields reachability to its last node. -/
theorem reach_of_chain (qs : List Question) :
    ∀ (v : List String) (dep node : String),
      List.Chain' (DepEdge qs) (dep :: v) → (dep :: v).getLast? = some node →
      Relation.ReflTransGen (DepEdge qs) dep node := by
  intro v
  induction v with
  | nil =>
    intro dep node _ hl
    have : dep = node := by simpa using hl
    subst this
    exact Relation.ReflTransGen.refl
  | cons b v' ih =>
    intro dep node hchain hl
    rw [List.chain'_cons] at hchain
    have hl' : (b :: v').getLast? = some node := by
      simpa [List.getLast?_cons_cons] using hl
    exact Relation.ReflTransGen.head hchain.1 (ih b node hchain.2 hl')

/-- An edge from the end of a chain back to one of the chain's nodes
closes a directed cycle. -/
theorem cycle_of_back_edge (qs : List Question) (l : List String) (dep node : String)
    (hchain : List.Chain' (DepEdge qs) l) (hl : l.getLast? = some node)
    (hdep : dep ∈ l) (hedge : DepEdge qs node dep) :
    Relation.TransGen (DepEdge qs) dep dep := by
  obtain ⟨u, v, rfl⟩ := List.append_of_mem hdep
  have hc2 : List.Chain' (DepEdge qs) (dep :: v) := (List.chain'_append.mp hchain).2.1
  have hl2 : (dep :: v).getLast? = some node := by
    rwa [List.getLast?_append_of_ne_nil u (by simp)] at hl
  exact Relation.TransGen.tail' (reach_of_chain qs v dep node hc2 hl2) hedge

/-- Specification of the dependency loop of the DFS, assuming the
specification of the recursive visit at the same fuel: the recursion
stack is restored, the visited set only grows (within the graph keys,
keeping it duplicate-free), and — on an acyclic graph — no cycle is ever
recorded. -/
theorem dfsDeps_spec (qs : List Question) (fuel : Nat)
    (hvisit : ∀ (node : String) (p₀ : List String) (s : DfsState),
      node ∈ graphKeys qs → ¬ node ∈ s.visited →
      unvisitedCount (graphKeys qs) s.visited ≤ fuel →
      s.stack = p₀.reverse →
      List.Chain' (DepEdge qs) (p₀ ++ [node]) →
      ∀ r, r = dfsVisit (dependentBy qs) fuel node (p₀ ++ [node]) s →
        r.stack = s.stack ∧
        (∀ x, x ∈ s.visited → x ∈ r.visited) ∧
        node ∈ r.visited ∧
        (∀ x, x ∈ r.visited → x ∈ s.visited ∨ x ∈ graphKeys qs) ∧
        (s.visited.Nodup → r.visited.Nodup) ∧
        (¬ GraphHasCycle qs → r.cycles = s.cycles)) :
    ∀ (deps : List String) (node : String) (p₀ : List String) (s : DfsState),
      (∀ d, d ∈ deps → d ∈ dependentBy qs node) →
      unvisitedCount (graphKeys qs) s.visited ≤ fuel →
      s.stack = (p₀ ++ [node]).reverse →
      List.Chain' (DepEdge qs) (p₀ ++ [node]) →
      ∀ r, r = dfsDeps (dfsVisit (dependentBy qs) fuel) deps (p₀ ++ [node]) s →
        r.stack = s.stack ∧
        (∀ x, x ∈ s.visited → x ∈ r.visited) ∧
        (∀ x, x ∈ r.visited → x ∈ s.visited ∨ x ∈ graphKeys qs) ∧
        (s.visited.Nodup → r.visited.Nodup) ∧
        (¬ GraphHasCycle qs → r.cycles = s.cycles) := by
  intro deps
  induction deps with
  | nil =>
    intro node p₀ s _ _ _ _ r hr
    rw [dfsDeps] at hr
    subst hr
    exact ⟨rfl, fun x hx => hx, fun x hx => Or.inl hx, fun h => h, fun _ => rfl⟩
  | cons dep rest ih =>
    intro node p₀ s hdeps hfuel hstack hchain r hr
    rw [dfsDeps] at hr
    have hedge : DepEdge qs node dep := hdeps dep (List.mem_cons_self _ _)
    by_cases hv : dep ∈ s.visited
    · have hvb : (s.visited.contains dep) = true := by
        simp [List.contains, List.elem_iff, hv]
      rw [hvb] at hr
      simp only [if_pos] at hr
      by_cases hstk : dep ∈ s.stack
      · have hstkb : (s.stack.contains dep) = true := by
          simp [List.contains, List.elem_iff, hstk]
        rw [hstkb] at hr
        simp only [if_pos] at hr
        have hcycle : Relation.TransGen (DepEdge qs) dep dep := by
          refine cycle_of_back_edge qs (p₀ ++ [node]) dep node hchain
            (List.getLast?_concat _) ?_ hedge
          rw [hstack] at hstk
          exact List.mem_reverse.mp hstk
        obtain ⟨h1, h2, h3, h4, _⟩ := ih node p₀
          ⟨s.visited, s.stack, s.cycles ++ [p₀ ++ [node] ++ [dep]]⟩
          (fun d hd => hdeps d (List.mem_cons_of_mem _ hd)) hfuel hstack hchain r hr
        exact ⟨h1, h2, h3, h4, fun hA => absurd ⟨dep, hcycle⟩ hA⟩
      · have hstkb : (s.stack.contains dep) = false := by
          simp [List.contains, List.elem_iff, hstk]
        rw [hstkb] at hr
        simp only [Bool.false_eq_true, if_false] at hr
        exact ih node p₀ s (fun d hd => hdeps d (List.mem_cons_of_mem _ hd))
          hfuel hstack hchain r hr
    · have hvb : (s.visited.contains dep) = false := by
        simp [List.contains, List.elem_iff, hv]
      rw [hvb] at hr
      simp only [Bool.false_eq_true, if_false] at hr
      have hkdep : dep ∈ graphKeys qs := dependentBy_subset_keys qs node dep hedge
      have hchain' : List.Chain' (DepEdge qs) ((p₀ ++ [node]) ++ [dep]) := by
        refine List.chain'_append.mpr ⟨hchain, List.chain'_singleton dep, ?_⟩
        intro x hx y hy
        rw [List.getLast?_concat] at hx
        simp only [List.head?_cons, Option.mem_def, Option.some.injEq] at hx hy
        rw [← hx, ← hy]
        exact hedge
      obtain ⟨v1, v2, v3, v4, v5, v6⟩ := hvisit dep (p₀ ++ [node]) s hkdep hv hfuel
        hstack hchain'
        (dfsVisit (dependentBy qs) fuel dep ((p₀ ++ [node]) ++ [dep]) s) rfl
      have hfuel' : unvisitedCount (graphKeys qs)
          (dfsVisit (dependentBy qs) fuel dep ((p₀ ++ [node]) ++ [dep]) s).visited ≤ fuel :=
        le_trans (unvisitedCount_mono v2) hfuel
      have hstack' :
          (dfsVisit (dependentBy qs) fuel dep ((p₀ ++ [node]) ++ [dep]) s).stack =
            (p₀ ++ [node]).reverse := by rw [v1, hstack]
      obtain ⟨h1, h2, h3, h4, h5⟩ := ih node p₀
        (dfsVisit (dependentBy qs) fuel dep ((p₀ ++ [node]) ++ [dep]) s)
        (fun d hd => hdeps d (List.mem_cons_of_mem _ hd)) hfuel' hstack' hchain r hr
      refine ⟨by rw [h1, v1], fun x hx => h2 x (v2 x hx), ?_, fun hnd => h4 (v5 hnd), ?_⟩
      · intro x hx
        rcases h3 x hx with hx' | hx'
        · exact v4 x hx'
        · exact Or.inr hx'
      · intro hA
        rw [h5 hA, v6 hA]

/-- Specification of the recursive DFS visit: with fuel dominating the
number of unvisited graph keys, visiting an unvisited key restores the
recursion stack, marks the key (and only graph keys) visited without
creating duplicates, and — on an acyclic graph — records no cycle. -/
theorem dfsVisit_spec (qs : List Question) :
    ∀ (fuel : Nat) (node : String) (p₀ : List String) (s : DfsState),
      node ∈ graphKeys qs → ¬ node ∈ s.visited →
      unvisitedCount (graphKeys qs) s.visited ≤ fuel →
      s.stack = p₀.reverse →
      List.Chain' (DepEdge qs) (p₀ ++ [node]) →
      ∀ r, r = dfsVisit (dependentBy qs) fuel node (p₀ ++ [node]) s →
        r.stack = s.stack ∧
        (∀ x, x ∈ s.visited → x ∈ r.visited) ∧
        node ∈ r.visited ∧
        (∀ x, x ∈ r.visited → x ∈ s.visited ∨ x ∈ graphKeys qs) ∧
        (s.visited.Nodup → r.visited.Nodup) ∧
        (¬ GraphHasCycle qs → r.cycles = s.cycles) := by
  intro fuel
  induction fuel with
  | zero =>
    intro node p₀ s hk hnv hfuel _ _ r _
    have := unvisitedCount_pos hk hnv
    omega
  | succ f ih =>
    intro node p₀ s hk hnv hfuel hstack hchain r hr
    rw [dfsVisit] at hr
    have hnvb : (s.visited.contains node) = false := by
      simp [List.contains, List.elem_iff, hnv]
    rw [hnvb] at hr
    simp only [Bool.false_eq_true, if_false] at hr
    have hfuel1 : unvisitedCount (graphKeys qs) (node :: s.visited) ≤ f := by
      have := unvisitedCount_cons_lt hk hnv
      omega
    have hstack1 : (DfsState.mk (node :: s.visited) (node :: s.stack) s.cycles).stack =
        ((p₀ ++ [node]).reverse) := by
      show node :: s.stack = (p₀ ++ [node]).reverse
      rw [hstack]
      simp
    obtain ⟨d1, d2, d3, d4, d5⟩ := dfsDeps_spec qs f ih (dependentBy qs node) node p₀
      ⟨node :: s.visited, node :: s.stack, s.cycles⟩
      (fun d hd => hd) hfuel1 hstack1 hchain
      (dfsDeps (dfsVisit (dependentBy qs) f) (dependentBy qs node) (p₀ ++ [node])
        ⟨node :: s.visited, node :: s.stack, s.cycles⟩) rfl
    subst hr
    refine ⟨?_, ?_, ?_, ?_, ?_, ?_⟩
    · show (dfsDeps (dfsVisit (dependentBy qs) f) (dependentBy qs node) (p₀ ++ [node])
        ⟨node :: s.visited, node :: s.stack, s.cycles⟩).stack.erase node = s.stack
      rw [d1]
      show (node :: s.stack).erase node = s.stack
      exact List.erase_cons_head node s.stack
    · intro x hx
      exact d2 x (List.mem_cons_of_mem _ hx)
    · exact d2 node (List.mem_cons_self _ _)
    · intro x hx
      rcases d3 x hx with hx' | hx'
      · rcases List.mem_cons.mp hx' with rfl | hx''
        · exact Or.inr hk
        · exact Or.inl hx''
      · exact Or.inr hx'
    · intro hnd
      exact d4 (List.nodup_cons.mpr ⟨hnv, hnd⟩)
    · intro hA
      exact d5 hA

/-- Specification of the root loop of `detectCircularDependencies`: the
stack ends empty, every listed key ends up visited, visited keys are
graph keys without duplicates, and on an acyclic graph no cycles are
accumulated. -/
theorem detect_fold_spec (qs : List Question) :
    ∀ (ks : List String) (s : DfsState),
      (∀ k, k ∈ ks → k ∈ graphKeys qs) →
      s.stack = [] →
      (∀ x, x ∈ s.visited → x ∈ graphKeys qs) →
      s.visited.Nodup →
      ∀ r, r = ks.foldl (fun s k => if s.visited.contains k then s
          else dfsVisit (dependentBy qs) ((graphKeys qs).length + 1) k [k] s) s →
        r.stack = [] ∧
        (∀ x, x ∈ s.visited → x ∈ r.visited) ∧
        (∀ k, k ∈ ks → k ∈ r.visited) ∧
        (∀ x, x ∈ r.visited → x ∈ graphKeys qs) ∧
        r.visited.Nodup ∧
        (¬ GraphHasCycle qs → r.cycles = s.cycles) := by
  intro ks
  induction ks with
  | nil =>
    intro s _ hstack hsub hnd r hr
    rw [List.foldl_nil] at hr
    subst hr
    exact ⟨hstack, fun x hx => hx, by simp, hsub, hnd, fun _ => rfl⟩
  | cons k ks' ih =>
    intro s hks hstack hsub hnd r hr
    rw [List.foldl_cons] at hr
    have hkk : k ∈ graphKeys qs := hks k (List.mem_cons_self _ _)
    by_cases hv : k ∈ s.visited
    · have hvb : (s.visited.contains k) = true := by
        simp [List.contains, List.elem_iff, hv]
      rw [hvb] at hr
      simp only [if_pos] at hr
      obtain ⟨h1, h2, h3, h4, h5, h6⟩ := ih s (fun x hx => hks x (List.mem_cons_of_mem _ hx))
        hstack hsub hnd r hr
      refine ⟨h1, h2, ?_, h4, h5, h6⟩
      intro x hx
      rcases List.mem_cons.mp hx with rfl | hx'
      · exact h2 x hv
      · exact h3 x hx'
    · have hvb : (s.visited.contains k) = false := by
        simp [List.contains, List.elem_iff, hv]
      rw [hvb] at hr
      simp only [Bool.false_eq_true, if_false] at hr
      have hfuel : unvisitedCount (graphKeys qs) s.visited ≤ (graphKeys qs).length + 1 := by
        have := unvisitedCount_le_length (graphKeys qs) s.visited
        omega
      obtain ⟨v1, v2, v3, v4, v5, v6⟩ := dfsVisit_spec qs ((graphKeys qs).length + 1)
        k [] s hkk hv hfuel (by rw [hstack]; rfl) (by simp)
        (dfsVisit (dependentBy qs) ((graphKeys qs).length + 1) k [k] s) rfl
      have hsub' : ∀ x, x ∈ (dfsVisit (dependentBy qs) ((graphKeys qs).length + 1)
          k [k] s).visited → x ∈ graphKeys qs := by
        intro x hx
        rcases v4 x hx with hx' | hx'
        · exact hsub x hx'
        · exact hx'
      obtain ⟨h1, h2, h3, h4, h5, h6⟩ := ih
        (dfsVisit (dependentBy qs) ((graphKeys qs).length + 1) k [k] s)
        (fun x hx => hks x (List.mem_cons_of_mem _ hx))
        (by rw [v1, hstack]) hsub' (v5 hnd) r hr
      refine ⟨h1, fun x hx => h2 x (v2 x hx), ?_, h4, h5, ?_⟩
      · intro x hx
        rcases List.mem_cons.mp hx with rfl | hx'
        · exact h2 x v3
        · exact h3 x hx'
      · intro hA
        rw [h6 hA, v6 hA]

/-- C5 amended: on every acyclic dependency graph
`detectCircularDependencies` returns `hasCycles = false` with an empty
cycles list; on the two-question mutual dependency it returns
`hasCycles = true` with a reported cycle containing both keys; and the
traversal visits every graph key exactly once (every key is considered
as a DFS root, skipped when already visited, and the final visited set
is exactly the duplicate-free key set).  The cycles list records one
entry per DFS back edge and therefore does not enumerate every
elementary cycle (see the counterexample). -/
theorem C5_detect_cycles_amended :
    (∀ qs : List Question, ¬ GraphHasCycle qs →
      detectCircularDependencies qs = (false, []))
    ∧ ((detectCircularDependencies twoCycleQuestions).1 = true ∧
        ∃ c ∈ (detectCircularDependencies twoCycleQuestions).2, "q1" ∈ c ∧ "q2" ∈ c)
    ∧ (∀ qs : List Question, (detectState qs).visited.Nodup ∧
        (∀ k, k ∈ (detectState qs).visited ↔ k ∈ graphKeys qs)) := by
  have hfold : ∀ qs : List Question,
      (detectState qs).stack = [] ∧
      (∀ k, k ∈ graphKeys qs → k ∈ (detectState qs).visited) ∧
      (∀ x, x ∈ (detectState qs).visited → x ∈ graphKeys qs) ∧
      (detectState qs).visited.Nodup ∧
      (¬ GraphHasCycle qs → (detectState qs).cycles = []) := by
    intro qs
    obtain ⟨h1, _, h3, h4, h5, h6⟩ := detect_fold_spec qs (graphKeys qs) ⟨[], [], []⟩
      (fun k hk => hk) rfl (by simp) List.nodup_nil (detectState qs) rfl
    exact ⟨h1, h3, h4, h5, h6⟩
  refine ⟨?_, ⟨rfl, ⟨["q1", "q2", "q1"], by decide, by decide, by decide⟩⟩, ?_⟩
  · intro qs hA
    obtain ⟨_, _, _, _, hcycles⟩ := hfold qs
    show (!(detectState qs).cycles.isEmpty, (detectState qs).cycles) = (false, [])
    rw [hcycles hA]
    rfl
  · intro qs
    obtain ⟨_, hall, hsub, hnd, _⟩ := hfold qs
    exact ⟨hnd, fun k => ⟨hsub k, hall k⟩⟩

/-- Witness for C5 on a concrete acyclic question set (a single question
with no rule: its dependency graph has no edges). -/
theorem C5_detect_cycles_amended_witness :
    (¬ GraphHasCycle [⟨"a", "f", none⟩]) ∧
      detectCircularDependencies [⟨"a", "f", none⟩] = (false, []) := by
  have hnoedge : ∀ x y : String, ¬ DepEdge [(⟨"a", "f", none⟩ : Question)] x y := by
    intro x y hb
    simp [DepEdge, dependentBy] at hb
  have hacyc : ¬ GraphHasCycle [(⟨"a", "f", none⟩ : Question)] := by
    rintro ⟨n, h⟩
    cases h with
    | single h' => exact hnoedge _ _ h'
    | tail _ e => exact hnoedge _ _ e
  exact ⟨hacyc, C5_detect_cycles_amended.1 [⟨"a", "f", none⟩] hacyc⟩

/-- C5 counterexample: on the complete three-node dependency graph the
code reports exactly three cycles, all of which contain `q2`, while the
elementary cycle `q1 → q3 → q1` (both edges are present, and it does not
contain `q2`) is never listed — so the result does not list every
elementary cycle present. -/
theorem C5_counterexample :
    (detectCircularDependencies k3Questions).2 =
      [["q1", "q2", "q1"], ["q1", "q2", "q3", "q1"], ["q1", "q2", "q3", "q2"]] ∧
    "q3" ∈ dependentBy k3Questions "q1" ∧
    "q1" ∈ dependentBy k3Questions "q3" ∧
    (∀ c ∈ (detectCircularDependencies k3Questions).2, "q2" ∈ c) := by
  refine ⟨rfl, by decide, by decide, ?_⟩
  decide
